import Mathlib

/-!
Verification of the fake-traffic-go dynamic session-population controller
and its collaborators, shallowly embedded from the Go source.

The embedding models the `TrafficGenerator` state that `adjustActiveUsers`
touches (the key set of the `g.users` map) together with a log of the
observable lifecycle events (user created+started, stop signalled, entry
deleted).  Machine integers are modelled as `Int`/`Nat` with explicit
`% 2^32` where uint32 overflow matters; fallible operations return
`Option`; the pseudo-random generator is an oracle argument constrained
only by the contract of the library call it models.
-/

namespace FakeTraffic

/-- Observable events of the user-population reconciliation in
`adjustActiveUsers` (src/main.go): a user being constructed, inserted and
started; a stop signal being sent to a user; a key being deleted from the
live map. -/
inductive UserEvent where
  | added (h : Int)
  | stopSignal (h : Int)
  | removed (h : Int)
deriving DecidableEq, Repr

/-- The part of the `TrafficGenerator` state mutated by `adjustActiveUsers`:
the key set of the `g.users` map, plus the event log. -/
structure GenState where
  users : Finset Int
  events : List UserEvent

/-- The grow loop of `adjustActiveUsers`:
`for i := currentCount; i < targetCount; i++ { user := NewBrowserUser(i, ...); g.users[i] = user; user.Start() }`.
The first argument is the iteration count `(targetCount - currentCount).toNat`,
the second the loop index `i`. -/
def addUsersLoop : Nat → Int → GenState → GenState
  | 0, _, st => st
  | k + 1, i, st =>
      addUsersLoop k (i + 1)
        { users := insert i st.users
          events := st.events ++ [UserEvent.added i] }

/-- The shrink loop of `adjustActiveUsers`:
`for i := currentCount - 1; i >= targetCount; i-- { if user, exists := g.users[i]; exists { user.Stop(); delete(g.users, i) } }`.
The first argument is the iteration count `(currentCount - targetCount).toNat`,
the second the loop index `i`. -/
def removeUsersLoop : Nat → Int → GenState → GenState
  | 0, _, st => st
  | k + 1, i, st =>
      removeUsersLoop k (i - 1)
        (if i ∈ st.users then
          { users := st.users.erase i
            events := st.events ++ [UserEvent.stopSignal i, UserEvent.removed i] }
         else st)

/-- `adjustActiveUsers` (src/main.go lines 265-291): reads
`currentCount := len(g.users)` once, then adds users with fresh sequential
handles while `currentCount < targetCount`, and removes users in descending
handle order while `currentCount > targetCount`. -/
def adjustActiveUsers (st : GenState) (targetCount : Int) : GenState :=
  let currentCount : Int := st.users.card
  let st1 :=
    if currentCount < targetCount then
      addUsersLoop (targetCount - currentCount).toNat currentCount st
    else st
  if currentCount > targetCount then
    removeUsersLoop (currentCount - targetCount).toNat (currentCount - 1) st1
  else st1

/-- The state of a freshly constructed `TrafficGenerator`:
`users: make(map[int]*BrowserUser)` is empty and nothing has happened yet. -/
def initState : GenState := { users := ∅, events := [] }

/-- One body of the ticker case of `manageUsers` (src/main.go lines 240-262):
`if !g.config.IsEnabled() { g.adjustActiveUsers(0); continue }` else
`g.adjustActiveUsers(g.config.GetConcurrentUsers())`. -/
def manageUsersTick (enabled : Bool) (concurrentUsers : Int) (st : GenState) : GenState :=
  if !enabled then adjustActiveUsers st 0
  else adjustActiveUsers st concurrentUsers

/-- Feeding a sequence of target values to `adjustActiveUsers`, one
reconciliation step per list element. -/
def applyTargets (ts : List Int) (st : GenState) : GenState :=
  ts.foldl adjustActiveUsers st

/-- The key set `{0, 1, ..., n-1}` as a `Finset Int`. -/
def zrange (n : Nat) : Finset Int := (Finset.range n).image (fun i : Nat => (i : Int))

lemma zrange_card (n : Nat) : (zrange n).card = n := by
  rw [zrange, Finset.card_image_of_injective _ (fun a b hab => by exact_mod_cast hab),
    Finset.card_range]

lemma zrange_zero : zrange 0 = ∅ := by
  simp [zrange]

lemma zrange_succ (n : Nat) : zrange (n + 1) = insert ((n : Int)) (zrange n) := by
  simp [zrange, Finset.range_succ]

lemma not_mem_zrange_self (n : Nat) : ((n : Int)) ∉ zrange n := by
  intro hmem
  rw [zrange, Finset.mem_image] at hmem
  obtain ⟨a, ha, hcast⟩ := hmem
  rw [Finset.mem_range] at ha
  have : a = n := by exact_mod_cast hcast
  omega

lemma mem_zrange_neg {n : Nat} {i : Int} (hi : i < 0) : i ∉ zrange n := by
  intro hmem
  rw [zrange, Finset.mem_image] at hmem
  obtain ⟨a, _, hcast⟩ := hmem
  omega

lemma mem_zrange_self_succ (m : Nat) : ((m : Int)) ∈ zrange (m + 1) := by
  rw [zrange, Finset.mem_image]
  exact ⟨m, Finset.mem_range.mpr (by omega), rfl⟩

lemma zrange_erase (n : Nat) : (zrange (n + 1)).erase ((n : Int)) = zrange n := by
  rw [zrange_succ, Finset.erase_insert (not_mem_zrange_self n)]

lemma addUsersLoop_users : ∀ (k n : Nat) (st : GenState),
    st.users = zrange n → (addUsersLoop k ((n : Int)) st).users = zrange (n + k) := by
  intro k
  induction k with
  | zero =>
      intro n st h
      simpa [addUsersLoop] using h
  | succ k ih =>
      intro n st h
      have hcast : ((n : Int)) + 1 = ((n + 1 : Nat) : Int) := by push_cast; ring
      have hstep :
          addUsersLoop (k + 1) ((n : Int)) st =
          addUsersLoop k (((n + 1 : Nat) : Int))
            { users := insert ((n : Int)) st.users
              events := st.events ++ [UserEvent.added ((n : Int))] } := by
        rw [addUsersLoop, hcast]
      rw [hstep]
      have h' :
          ({ users := insert ((n : Int)) st.users
             events := st.events ++ [UserEvent.added ((n : Int))] } : GenState).users
            = zrange (n + 1) := by
        simpa [zrange_succ] using congrArg (insert ((n : Int))) h
      rw [ih (n + 1) _ h']
      congr 1
      omega

lemma removeUsersLoop_neg : ∀ (k : Nat) (i : Int) (n : Nat) (st : GenState),
    st.users = zrange n → i < 0 → (removeUsersLoop k i st).users = st.users := by
  intro k
  induction k with
  | zero =>
      intro i n st _ _
      simp [removeUsersLoop]
  | succ k ih =>
      intro i n st h hi
      have hnot : i ∉ st.users := by
        rw [h]; exact mem_zrange_neg hi
      rw [removeUsersLoop, if_neg hnot]
      exact ih (i - 1) n st h (by omega)

lemma removeUsersLoop_users : ∀ (k n : Nat) (st : GenState),
    st.users = zrange n →
    (removeUsersLoop k (((n : Int)) - 1) st).users = zrange (n - k) := by
  intro k
  induction k with
  | zero =>
      intro n st h
      simpa [removeUsersLoop] using h
  | succ k ih =>
      intro n st h
      match n with
      | 0 =>
          have hneg : ((0 : Nat) : Int) - 1 < 0 := by norm_num
          rw [removeUsersLoop_neg (k + 1) _ 0 st h hneg, h]
          congr 1
          omega
      | Nat.succ m =>
          have hidx : ((Nat.succ m : Nat) : Int) - 1 = ((m : Int)) := by push_cast; ring
          have hmem : ((m : Int)) ∈ st.users := by
            rw [h]; exact mem_zrange_self_succ m
          have hstep :
              removeUsersLoop (k + 1) (((Nat.succ m : Nat) : Int) - 1) st =
              removeUsersLoop k (((m : Int)) - 1)
                { users := st.users.erase ((m : Int))
                  events := st.events ++
                    [UserEvent.stopSignal ((m : Int)), UserEvent.removed ((m : Int))] } := by
            rw [hidx, removeUsersLoop, if_pos hmem]
          rw [hstep]
          have h' :
              ({ users := st.users.erase ((m : Int))
                 events := st.events ++
                   [UserEvent.stopSignal ((m : Int)), UserEvent.removed ((m : Int))] } :
                GenState).users = zrange m := by
            have := congrArg (fun s => Finset.erase s ((m : Int))) h
            simpa [zrange_erase] using this
          rw [ih m _ h']
          congr 1
          omega

lemma adjustActiveUsers_users (st : GenState) (n : Nat) (t : Int)
    (h : st.users = zrange n) :
    (adjustActiveUsers st t).users = zrange t.toNat := by
  have hc : ((st.users.card : Nat) : Int) = ((n : Int)) := by
    rw [h, zrange_card]
  simp only [adjustActiveUsers, hc]
  rcases lt_trichotomy ((n : Int)) t with h1 | h1 | h1
  · rw [if_neg (show ¬ t < ((n : Int)) by omega), if_pos h1]
    rw [addUsersLoop_users _ n st h]
    congr 1
    omega
  · rw [if_neg (show ¬ t < ((n : Int)) by omega),
      if_neg (show ¬ ((n : Int)) < t by omega), h]
    congr 1
    omega
  · rw [if_pos (show t < ((n : Int)) from h1),
      if_neg (show ¬ ((n : Int)) < t by omega)]
    rw [removeUsersLoop_users _ n st h]
    congr 1
    omega

lemma applyTargets_users : ∀ (ts : List Int) (st : GenState) (n : Nat),
    st.users = zrange n → ∃ m : Nat, (applyTargets ts st).users = zrange m := by
  intro ts
  induction ts with
  | nil =>
      intro st n h
      exact ⟨n, h⟩
  | cons t ts ih =>
      intro st n h
      exact ih _ t.toNat (adjustActiveUsers_users st n t h)

lemma initState_users : initState.users = zrange 0 := by
  simp [initState, zrange_zero]

/-- Claim C1: for every sequence of target values fed to `adjustActiveUsers`
(enabled = true), after each step the cardinality of the live user map equals
`max target 0`; in particular a negative target empties the map rather than
faulting.  The step whose aftermath is observed is the last element of the
fed sequence, and the quantification over the prefix `ts` makes the statement
cover every step of every sequence. -/
theorem adjustActiveUsers_card_eq_max (ts : List Int) (t : Int) :
    (((applyTargets (ts ++ [t]) initState).users.card : Nat) : Int) = max t 0 := by
  obtain ⟨m, hm⟩ := applyTargets_users ts initState 0 initState_users
  have hsplit : applyTargets (ts ++ [t]) initState =
      adjustActiveUsers (applyTargets ts initState) t := by
    simp [applyTargets, List.foldl_append]
  rw [hsplit, adjustActiveUsers_users _ m t hm, zrange_card]
  omega

/-- Claim C2: a `manageUsers` tick with the enabled flag false calls
`adjustActiveUsers(0)` regardless of the configured concurrent-user count,
so after that one tick the live user map is empty.  The state the tick acts
on is an arbitrary state reachable by previous reconciliation steps. -/
theorem manageUsersTick_disabled_empty (ts : List Int) (c : Int) :
    (manageUsersTick false c (applyTargets ts initState)).users = ∅ := by
  obtain ⟨m, hm⟩ := applyTargets_users ts initState 0 initState_users
  have h0 := adjustActiveUsers_users (applyTargets ts initState) m 0 hm
  simpa [manageUsersTick, zrange_zero] using h0

/-- Claim C3, counterexample: the claim says reconciling the five live users
0..4 to target 2 removes only handles 4 and 3 and leaves handles 0,1,2 live.
The code's shrink loop runs for every `i >= targetCount`, so it removes
handles 4, 3 and 2, and neither the claimed final key set nor the claimed
event log matches the computation. -/
theorem adjust_five_then_two_claim_false :
    ¬ ((adjustActiveUsers (adjustActiveUsers initState 5) 2).users =
        ({0, 1, 2} : Finset Int) ∧
       (adjustActiveUsers (adjustActiveUsers initState 5) 2).events =
        [UserEvent.added 0, UserEvent.added 1, UserEvent.added 2,
         UserEvent.added 3, UserEvent.added 4,
         UserEvent.stopSignal 4, UserEvent.removed 4,
         UserEvent.stopSignal 3, UserEvent.removed 3]) := by
  decide

/-- Claim C3, amended: starting from an empty live map, reconciling to
target 5 creates exactly the users with handles 0,1,2,3,4 (fresh sequential
handles starting at the current count, in ascending order); then reconciling
to target 2 removes exactly the sessions with handles 4, 3 and 2, in
descending handle order, signalling cancellation to each removed session
before deleting it from the map, leaving handles 0 and 1 live. -/
theorem adjust_five_then_two :
    (adjustActiveUsers initState 5).users = ({0, 1, 2, 3, 4} : Finset Int) ∧
    (adjustActiveUsers initState 5).events =
      [UserEvent.added 0, UserEvent.added 1, UserEvent.added 2,
       UserEvent.added 3, UserEvent.added 4] ∧
    (adjustActiveUsers (adjustActiveUsers initState 5) 2).users =
      ({0, 1} : Finset Int) ∧
    (adjustActiveUsers (adjustActiveUsers initState 5) 2).events =
      [UserEvent.added 0, UserEvent.added 1, UserEvent.added 2,
       UserEvent.added 3, UserEvent.added 4,
       UserEvent.stopSignal 4, UserEvent.removed 4,
       UserEvent.stopSignal 3, UserEvent.removed 3,
       UserEvent.stopSignal 2, UserEvent.removed 2] := by
  refine ⟨by decide, by decide, by decide, by decide⟩

/-- The request-statistics part of the `TrafficGenerator` state
(`requestCount int64`, `requestsStart time.Time`).  Timestamps and elapsed
seconds are modelled as exact rationals. -/
structure ThroughputState where
  requestCount : Int
  requestsStart : Rat

/-- `RecordRequest` (src/main.go lines 294-298): increments the request
counter. -/
def RecordRequest (g : ThroughputState) : ThroughputState :=
  { g with requestCount := g.requestCount + 1 }

/-- `GetActualRequestsPerSecond` (src/main.go lines 301-319): computes the
elapsed seconds since `requestsStart`, returns 0 if `elapsed < 1`, otherwise
returns `requestCount / elapsed`, and as a side effect resets the counter
and the window start when `elapsed > 60`.  `now` is the value of
`time.Now()` during the call; the returned pair is (result, new state). -/
def GetActualRequestsPerSecond (g : ThroughputState) (now : Rat) : Rat × ThroughputState :=
  let elapsed : Rat := now - g.requestsStart
  if elapsed < 1 then (0, g)
  else
    let rps : Rat := (g.requestCount : Rat) / elapsed
    if elapsed > 60 then (rps, { requestCount := 0, requestsStart := now })
    else (rps, g)

/-- Claim C4: `GetActualRequestsPerSecond` returns 0 when the elapsed time
is under 1 second; otherwise it returns the completed-request count divided
by the elapsed seconds; and when elapsed exceeds 60 seconds the same call
resets the counter to 0 and the window start to now, as a side effect of
the read, while still returning the pre-reset rate. -/
theorem GetActualRequestsPerSecond_spec (g : ThroughputState) (now : Rat) :
    (now - g.requestsStart < 1 →
      GetActualRequestsPerSecond g now = (0, g)) ∧
    (1 ≤ now - g.requestsStart →
      (GetActualRequestsPerSecond g now).1 =
        (g.requestCount : Rat) / (now - g.requestsStart)) ∧
    (1 ≤ now - g.requestsStart → 60 < now - g.requestsStart →
      (GetActualRequestsPerSecond g now).2 =
        { requestCount := 0, requestsStart := now }) ∧
    (1 ≤ now - g.requestsStart → now - g.requestsStart ≤ 60 →
      (GetActualRequestsPerSecond g now).2 = g) := by
  refine ⟨?_, ?_, ?_, ?_⟩
  · intro h
    rw [GetActualRequestsPerSecond, if_pos h]
  · intro h
    rw [GetActualRequestsPerSecond, if_neg (by exact not_lt.mpr h)]
    rcases lt_or_le (60 : Rat) (now - g.requestsStart) with h60 | h60
    · rw [if_pos h60]
    · rw [if_neg (not_lt.mpr h60)]
  · intro h h60
    rw [GetActualRequestsPerSecond, if_neg (not_lt.mpr h), if_pos h60]
  · intro h h60
    rw [GetActualRequestsPerSecond, if_neg (not_lt.mpr h), if_neg (not_lt.mpr h60)]

/-- Witness for claim C4: with 122 completed requests, a window start of 0
and a read at `now = 61`, the call returns the pre-reset rate `122 / 61 = 2`
and resets the counter and window. -/
theorem GetActualRequestsPerSecond_spec_witness :
    (GetActualRequestsPerSecond ⟨122, 0⟩ 61).1 = 2 ∧
    (GetActualRequestsPerSecond ⟨122, 0⟩ 61).2 = ⟨0, 61⟩ := by
  have h := GetActualRequestsPerSecond_spec ⟨122, 0⟩ 61
  have hstart : (⟨122, 0⟩ : ThroughputState).requestsStart = 0 := rfl
  have h1 : (1 : Rat) ≤ 61 - (⟨122, 0⟩ : ThroughputState).requestsStart := by
    rw [hstart]; norm_num
  have h60 : (60 : Rat) < 61 - (⟨122, 0⟩ : ThroughputState).requestsStart := by
    rw [hstart]; norm_num
  refine ⟨?_, h.2.2.1 h1 h60⟩
  rw [h.2.1 h1, hstart]
  norm_num

/-- The lifecycle state of the `TrafficGenerator` relevant to `Start`
(`running bool`), together with a count of the reconciliation loops that
`go g.manageUsers()` has launched. -/
structure ControllerState where
  running : Bool
  reconcileLoops : Nat
deriving DecidableEq, Repr

/-- `Start` (src/main.go lines 202-214): returns an "already running" error
when `g.running` is set, making no state change; otherwise sets `running`,
launches the `manageUsers` reconciliation loop and reports success.
The returned pair is (error result, new state). -/
def Start (g : ControllerState) : Except String Unit × ControllerState :=
  if g.running then (Except.error "traffic generator is already running", g)
  else (Except.ok (), { running := true, reconcileLoops := g.reconcileLoops + 1 })

/-- A freshly constructed, idle `TrafficGenerator`: not running, no loop
launched. -/
def idleController : ControllerState := { running := false, reconcileLoops := 0 }

/-- Claim C5: the first `Start()` on an idle controller succeeds and
launches the reconciliation loop; calling `Start()` again while running
returns the "already running" error, makes no state change, and leaves
exactly one reconciliation loop active. -/
theorem Start_twice :
    Start idleController =
      (Except.ok (), { running := true, reconcileLoops := 1 }) ∧
    Start (Start idleController).2 =
      (Except.error "traffic generator is already running",
       { running := true, reconcileLoops := 1 }) := by
  refine ⟨rfl, rfl⟩

/-- `GetRandomURL` (src/urls/urls.go lines 56-66): returns the fixed
fallback "https://example.com" when no URLs are loaded, otherwise indexes
the list at `rand.Intn(len(m.urls))`.  The generator is modelled as an
oracle `intn`; `Intn`'s contract (a value in `[0, n)` for `n > 0`) is a
hypothesis of the theorems, and the in-bounds index means the `getD`
default is never used. -/
def GetRandomURL (urls : List String) (intn : Nat → Nat) : String :=
  if urls.length = 0 then "https://example.com"
  else urls.getD (intn urls.length) ""

lemma getD_mem : ∀ (l : List String) (n : Nat) (d : String),
    n < l.length → l.getD n d ∈ l := by
  intro l
  induction l with
  | nil =>
      intro n d h
      simp at h
  | cons a l ih =>
      intro n d h
      match n with
      | 0 => exact List.mem_cons_self a l
      | Nat.succ m =>
          have hm : l.getD m d ∈ l := ih m d (by simpa using h)
          exact List.mem_cons_of_mem a hm

/-- Claim C7: `GetRandomURL` on a corpus with zero loaded URLs returns the
fixed fallback string "https://example.com"; it is a total function (never
fails, panics or blocks), and on a non-empty corpus it returns a member of
the loaded list whenever the random index respects `Intn`'s contract. -/
theorem GetRandomURL_spec (urls : List String) (intn : Nat → Nat)
    (hintn : ∀ n, 0 < n → intn n < n) :
    (urls = [] → GetRandomURL urls intn = "https://example.com") ∧
    (urls ≠ [] → GetRandomURL urls intn ∈ urls) := by
  constructor
  · intro h
    rw [GetRandomURL, if_pos (by simp [h])]
  · intro hne
    have hlen : 0 < urls.length := List.length_pos.mpr hne
    rw [GetRandomURL, if_neg (by omega)]
    exact getD_mem urls _ "" (hintn _ hlen)

/-- Witness for claim C7: the fallback on the empty corpus, and membership
on a two-element corpus with a random oracle satisfying `Intn`'s contract. -/
theorem GetRandomURL_spec_witness :
    GetRandomURL [] (fun n => n - 1) = "https://example.com" ∧
    GetRandomURL ["https://a.test", "https://b.test"] (fun n => n - 1) ∈
      ["https://a.test", "https://b.test"] := by
  have hintn : ∀ n : Nat, 0 < n → n - 1 < n := by
    intro n hn
    omega
  exact ⟨(GetRandomURL_spec [] _ hintn).1 rfl,
    (GetRandomURL_spec ["https://a.test", "https://b.test"] _ hintn).2 (by simp)⟩

/-- A 4-octet IPv4 address, the result of `net.ParseIP(s).To4()`. -/
structure IPv4 where
  a : Nat
  b : Nat
  c : Nat
  d : Nat
deriving DecidableEq, Repr

/-- Splitting a character list at dots, as the dotted-quad case of Go's
`net.ParseIP` does. -/
def splitOnDot : List Char → List (List Char)
  | [] => [[]]
  | c :: cs =>
      if c = '.' then [] :: splitOnDot cs
      else
        match splitOnDot cs with
        | [] => [[c]]
        | p :: ps => (c :: p) :: ps

/-- Numeric value of a decimal digit character. -/
def digitVal (c : Char) : Nat := c.toNat - '0'.toNat

/-- Parsing of one decimal octet field, as Go's `net.ParseIP` (Go ≥ 1.17)
does for dotted-quad addresses: 1-3 decimal digits, no leading zero,
value at most 255. -/
def parseOctet (s : List Char) : Option Nat :=
  if s.length = 0 ∨ 3 < s.length then none
  else if ¬ s.all Char.isDigit then none
  else if 1 < s.length ∧ s.headD ' ' = '0' then none
  else
    let v := s.foldl (fun a c => a * 10 + digitVal c) 0
    if v ≤ 255 then some v else none

/-- The dotted-quad case of `net.ParseIP(s).To4()`: four octet fields
separated by dots, or `none` (the Go code's `nil` check) otherwise. -/
def parseIPv4 (s : String) : Option IPv4 :=
  match (splitOnDot s.toList).map parseOctet with
  | [some a, some b, some c, some d] => some (IPv4.mk a b c d)
  | _ => none

/-- The `IPSpoofer` state (src/unnamed/part_002): the validated start and
end addresses. -/
structure IPSpoofer where
  startIP : IPv4
  endIP : IPv4
deriving DecidableEq, Repr

/-- The octet-comparison loop of `NewIPSpoofer`:
`for i := 0..3 { if startIP[i] > endIP[i] { error } else if startIP[i] < endIP[i] { break } }`.
Returns true when the loop completes without returning an error. -/
def rangeOk : List Nat → List Nat → Bool
  | s :: ss, e :: es =>
      if s > e then false
      else if s < e then true
      else rangeOk ss es
  | _, _ => true

/-- `NewIPSpoofer` (src/unnamed/part_002 lines 21-47): parses both bounds
as 4-octet addresses and checks `startIP <= endIP` octet by octet, failing
(`none`, the Go error returns) otherwise. -/
def NewIPSpoofer (startIPStr endIPStr : String) : Option IPSpoofer :=
  match parseIPv4 startIPStr with
  | none => none
  | some startIP =>
      match parseIPv4 endIPStr with
      | none => none
      | some endIP =>
          if rangeOk [startIP.a, startIP.b, startIP.c, startIP.d]
              [endIP.a, endIP.b, endIP.c, endIP.d]
          then some (IPSpoofer.mk startIP endIP)
          else none

/-- `ipToUint32`: `uint32(ip[0])<<24 | uint32(ip[1])<<16 | uint32(ip[2])<<8 | uint32(ip[3])`. -/
def ipToUint32 (ip : IPv4) : Nat :=
  (ip.a <<< 24) ||| (ip.b <<< 16) ||| (ip.c <<< 8) ||| ip.d

/-- math/rand's `Int63n(n)`: panics when `n <= 0` (modelled as `none`),
otherwise returns a value in `[0, n)`, modelled as `rng % n` where `rng`
is the oracle for the generator draw. -/
def int63n (rng : Nat) (n : Int) : Option Int :=
  if n ≤ 0 then none else some ((rng : Int) % n)

/-- `GetRandomIP` (src/unnamed/part_002 lines 50-63): converts the bounds
to uint32, computes `endInt - startInt + 1` in uint32 arithmetic (modelled
with explicit `% 2^32`), draws `rand.Int63n` of that size, and returns
`startInt + uint32(draw)`.  `uint32ToIP` and `String()` only format the
returned numeric value, so the model returns the numeric address;
`none` models the panic of `Int63n` on a non-positive argument. -/
def GetRandomIP (s : IPSpoofer) (rng : Nat) : Option Nat :=
  let startInt := ipToUint32 s.startIP
  let endInt := ipToUint32 s.endIP
  let size : Nat := ((endInt + 2 ^ 32 - startInt) % 2 ^ 32 + 1) % 2 ^ 32
  match int63n rng ((size : Int)) with
  | none => none
  | some k => some ((startInt + k.toNat) % 2 ^ 32)

/-- Claim C8: the constructor accepts the full range
0.0.0.0 - 255.255.255.255, but `GetRandomIP` on that accepted range panics
for every generator draw (`rand.Int63n` receives 0 because
`endInt - startInt + 1` overflows uint32 to 0), instead of returning an
address within the range as the claim states. -/
theorem GetRandomIP_full_range_panics :
    ∃ sp, NewIPSpoofer "0.0.0.0" "255.255.255.255" = some sp ∧
      ∀ rng : Nat, GetRandomIP sp rng = none := by
  refine ⟨IPSpoofer.mk (IPv4.mk 0 0 0 0) (IPv4.mk 255 255 255 255), by decide, ?_⟩
  intro rng
  rfl

/-- Outcome of `c.client.Do(req)` in `HTTPClient.Get`: any received
response with its status code (including a first redirect response, which
is delivered as the outcome because `NewHTTPClient` sets `CheckRedirect`
to return `http.ErrUseLastResponse`), or a transport-level error. -/
inductive DoResult where
  | response (status : Nat)
  | transportError (msg : String)
deriving DecidableEq, Repr

/-- The redirect policy installed by `NewHTTPClient`
(src/unnamed/part_001 lines 17-32): redirects are not followed. -/
def newHTTPClientFollowsRedirects : Bool := false

/-- Result of one `HTTPClient.Get` call: the returned Go error (`none`
means success) and how many times the completion callback ran. -/
structure GetOutcome where
  result : Option String
  callbackCalls : Nat
deriving DecidableEq, Repr

/-- `HTTPClient.Get` (src/unnamed/part_001 lines 40-69): fails when
`http.NewRequest` fails ("error creating request") or the transport fails
("request error"); any received response is success regardless of status
code (the status is only logged), and on success the completion callback
is invoked once, if provided, before returning. -/
def HTTPClientGet (newRequestErr : Option String) (doResult : DoResult)
    (hasCallback : Bool) : GetOutcome :=
  match newRequestErr with
  | some e => GetOutcome.mk (some ("error creating request: " ++ e)) 0
  | none =>
      match doResult with
      | DoResult.transportError e =>
          GetOutcome.mk (some ("request error: " ++ e)) 0
      | DoResult.response _status =>
          GetOutcome.mk none (if hasCallback then 1 else 0)

/-- Claim C9: `HTTPClient.Get` with a provided callback reports failure
exactly when request construction or the transport fails; any received
response (regardless of status code, including a first redirect response,
which is not followed) is success; and the completion callback runs
exactly once on success and never on failure. -/
theorem HTTPClientGet_spec (newRequestErr : Option String) (doResult : DoResult) :
    ((HTTPClientGet newRequestErr doResult true).result = none ↔
      newRequestErr = none ∧ ∃ status, doResult = DoResult.response status) ∧
    ((HTTPClientGet newRequestErr doResult true).result = none →
      (HTTPClientGet newRequestErr doResult true).callbackCalls = 1) ∧
    ((HTTPClientGet newRequestErr doResult true).result ≠ none →
      (HTTPClientGet newRequestErr doResult true).callbackCalls = 0) ∧
    newHTTPClientFollowsRedirects = false := by
  rcases newRequestErr with _ | e
  · rcases doResult with status | msg
    · simp [HTTPClientGet, newHTTPClientFollowsRedirects]
    · simp [HTTPClientGet, newHTTPClientFollowsRedirects]
  · simp [HTTPClientGet, newHTTPClientFollowsRedirects]

/-- Witness for claim C9: a 301 redirect response, with construction and
transport succeeding, is a success and runs the callback exactly once. -/
theorem HTTPClientGet_spec_witness :
    (HTTPClientGet none (DoResult.response 301) true).result = none ∧
    (HTTPClientGet none (DoResult.response 301) true).callbackCalls = 1 := by
  have h := HTTPClientGet_spec none (DoResult.response 301)
  have hr : (HTTPClientGet none (DoResult.response 301) true).result = none :=
    h.1.mpr ⟨rfl, 301, rfl⟩
  exact ⟨hr, h.2.1 hr⟩

/-- Outcome of opening and scanning the URL file in `LoadFromFile`: the
open can fail, and otherwise the scanner yields the file's lines and
possibly a scan error (`scanner.Err()`). -/
inductive FileOutcome where
  | openError (e : String)
  | content (lines : List String) (scanErr : Option String)

/-- `LoadFromFile` (src/urls/urls.go lines 28-53): collects the non-empty
lines, and only after the whole file has been read without error swaps
them into `m.urls`; on an open or scan error it returns the error with
`m.urls` untouched.  `corpus` is the current `m.urls`; the returned pair
is (error result, new `m.urls`). -/
def LoadFromFile (corpus : List String) (f : FileOutcome) : Option String × List String :=
  match f with
  | FileOutcome.openError e => (some e, corpus)
  | FileOutcome.content lines scanErr =>
      let urls := lines.filter (fun url => url ≠ "")
      match scanErr with
      | some e => (some e, corpus)
      | none => (none, urls)

/-- `Count` (src/urls/urls.go lines 69-73): the number of loaded URLs. -/
def Count (corpus : List String) : Nat := corpus.length

/-- Claim C10: a successful `LoadFromFile` replaces the corpus with exactly
the non-empty lines of the file in file order, so `Count` afterwards equals
the number of non-empty lines; on an open error or a scan error it returns
the error and leaves the previously loaded corpus unchanged. -/
theorem LoadFromFile_spec (corpus lines : List String) (e : String) :
    LoadFromFile corpus (FileOutcome.content lines none) =
      (none, lines.filter (fun url => url ≠ "")) ∧
    Count (LoadFromFile corpus (FileOutcome.content lines none)).2 =
      (lines.filter (fun url => url ≠ "")).length ∧
    LoadFromFile corpus (FileOutcome.openError e) = (some e, corpus) ∧
    LoadFromFile corpus (FileOutcome.content lines (some e)) = (some e, corpus) := by
  refine ⟨rfl, rfl, rfl, rfl⟩

end FakeTraffic
